import Mathlib

/-!
Verification of the TaskMaster core (Store = TaskAPI in js/api.js,
Manager = TaskManager in js/taskManager.js) against its specification.

The embedding is shallow: the persisted record is modelled explicitly, the
asynchronous operations become pure state-passing functions, and the wall
clock (Date.now) becomes an explicit parameter of every operation that reads
it.  Timestamp rendering (new Date().toISOString()) is modelled as the
decimal rendering of the millisecond clock: no property below depends on the
calendar format, only on which clock value produced it.
-/

namespace TaskMaster

/-- A task object as created by TaskAPI.addTask and mutated by
TaskAPI.updateTask: id, text, completed, createdAt, and an updatedAt field
that is absent until the first mutation. -/
structure Task where
  id : String
  text : String
  completed : Bool
  createdAt : String
  updatedAt : Option String
  deriving DecidableEq, Repr

/-- Rendering of the millisecond clock used for createdAt and updatedAt
(new Date().toISOString() in the source); modelled as the decimal rendering
since no claim inspects the calendar format. -/
def isoDate (ms : Nat) : String := toString ms

/-- Errors the data layer can raise: the update target is missing
(Tarea no encontrada), localStorage access throws, or JSON.parse throws on a
malformed persisted value. -/
inductive StoreError where
  | notFound
  | storageUnavailable
  | parseError
  deriving DecidableEq, Repr

/-- JSON values, as produced by JSON.parse.  Tasks contain only strings and
booleans, so numbers are modelled by integers. -/
inductive JsonVal where
  | null
  | bool (b : Bool)
  | num (n : Int)
  | str (s : String)
  | arr (xs : List JsonVal)
  | obj (fields : List (String × JsonVal))

/-- The state of localStorage under the single STORAGE_KEY: no record,
a string that JSON.parse rejects, or a string that parses to the given
JSON value.  JSON.parse depends on the stored text only through this
classification. -/
inductive Stored where
  | absent
  | malformed
  | value (v : JsonVal)

/-- JavaScript truthiness of a parsed JSON value (the tasks variable is
taken through a logical-or with the empty array in getTasks). -/
def isFalsy : JsonVal → Bool
  | .null => true
  | .bool b => !b
  | .num n => n == 0
  | .str s => s == ""
  | .arr _ => false
  | .obj _ => false

/-- First field of a JSON object with the given key, as property lookup on
the parsed object. -/
def lookupField : List (String × JsonVal) → String → Option JsonVal
  | [], _ => none
  | (k, v) :: rest, key => if k == key then some v else lookupField rest key

/-- The JSON object JSON.stringify produces for one task: the four creation
fields, plus updatedAt only once a mutation has set it (the freshly created
object carries no updatedAt key). -/
def encodeTask (t : Task) : JsonVal :=
  .obj ([("id", .str t.id), ("text", .str t.text),
         ("completed", .bool t.completed), ("createdAt", .str t.createdAt)] ++
        (match t.updatedAt with
         | some u => [("updatedAt", .str u)]
         | none => []))

/-- The JSON array JSON.stringify produces for the whole collection. -/
def encodeTasks (ts : List Task) : JsonVal :=
  .arr (ts.map encodeTask)

/-- Reading one task back out of a parsed JSON object: the inverse of
encodeTask on the layout the serializer emits. -/
def decodeTask : JsonVal → Option Task
  | .obj fields =>
    match lookupField fields "id", lookupField fields "text",
          lookupField fields "completed", lookupField fields "createdAt" with
    | some (.str i), some (.str tx), some (.bool c), some (.str ca) =>
      match lookupField fields "updatedAt" with
      | some (.str ua) => some ⟨i, tx, c, ca, some ua⟩
      | none => some ⟨i, tx, c, ca, none⟩
      | some _ => none
    | _, _, _, _ => none
  | _ => none

/-- Reading a list of tasks out of a list of parsed JSON values. -/
def decodeTaskList : List JsonVal → Option (List Task)
  | [] => some []
  | x :: xs =>
    match decodeTask x, decodeTaskList xs with
    | some t, some ts => some (t :: ts)
    | _, _ => none

/-- Reading a whole collection out of a parsed JSON value. -/
def decodeTasks : JsonVal → Option (List Task)
  | .arr xs => decodeTaskList xs
  | _ => none

namespace TaskAPI

/-- TaskAPI.getTasks at the storage level: parse the stored string, take the
result through a logical-or with the empty array, and rethrow the parse
error when the stored value is malformed (the catch block logs and throws).
An absent record gives the null value, which is falsy, hence the empty
array. -/
def getTasks : Stored → Except StoreError JsonVal
  | .absent => .ok (.arr [])
  | .malformed => .error .parseError
  | .value v => .ok (if isFalsy v then .arr [] else v)

/-- TaskAPI.saveTasks: replace the stored record with the serialization of
the given collection. -/
def saveTasks (ts : List Task) (_s : Stored) : Stored :=
  .value (encodeTasks ts)

end TaskAPI

/-- The task object TaskAPI.addTask builds: the id is the decimal rendering
of Date.now(), the text is taken verbatim from the argument object,
completed starts false, createdAt is the clock rendering, and no updatedAt
key exists yet. -/
def mkNewTask (now : Nat) (text : String) : Task :=
  { id := toString now
    text := text
    completed := false
    createdAt := isoDate now
    updatedAt := none }

/-- The partial update object passed to TaskAPI.updateTask by its two
callers: toggleTaskCompletion passes only completed, updateTaskText passes
only text.  An absent field leaves the stored field untouched under the
object spread. -/
structure Updates where
  text : Option String
  completed : Option Bool
  deriving DecidableEq, Repr

/-- The merged task built by TaskAPI.updateTask: spread the old task, then
the updates, then stamp updatedAt with the current clock. -/
def applyUpdates (t : Task) (u : Updates) (nowIso : String) : Task :=
  { t with
    text := u.text.getD t.text
    completed := u.completed.getD t.completed
    updatedAt := some nowIso }

namespace TaskAPI

/- The remaining operations act on the decoded collection (the storage
holding its serialization, see saveTasks/getTasks); a saveFails flag models
localStorage.setItem throwing inside saveTasks, in which case nothing is
written and the error propagates to the caller. -/

/-- TaskAPI.addTask on the decoded collection: read the current tasks,
build the new task, unshift it, and save; the created task is returned.
When the save throws, the storage is left as it was and the error
propagates. -/
def addTask (now : Nat) (saveFails : Bool) (text : String) (stored : List Task) :
    Except StoreError (Task × List Task) :=
  let newTask := mkNewTask now text
  let tasks := newTask :: stored
  if saveFails then .error .storageUnavailable else .ok (newTask, tasks)

/-- The findIndex-then-replace step of TaskAPI.updateTask: locate the first
task with the given id, merge the updates onto it, and put the merged task
back at the same position, every other entry untouched.  none models the
index -1 case. -/
def updateInList (nowIso : String) (u : Updates) (id : String) :
    List Task → Option (Task × List Task)
  | [] => none
  | t :: ts =>
    if t.id == id then
      let updatedTask := applyUpdates t u nowIso
      some (updatedTask, updatedTask :: ts)
    else
      match updateInList nowIso u id ts with
      | none => none
      | some (ut, ts') => some (ut, t :: ts')

/-- TaskAPI.updateTask on the decoded collection: read, findIndex, throw
Tarea no encontrada when absent, otherwise merge and save; the updated task
is returned.  A throwing save again leaves the storage as it was. -/
def updateTask (nowIso : String) (saveFails : Bool) (stored : List Task)
    (id : String) (u : Updates) : Except StoreError (Task × List Task) :=
  match updateInList nowIso u id stored with
  | none => .error .notFound
  | some (ut, ts') =>
    if saveFails then .error .storageUnavailable else .ok (ut, ts')

end TaskAPI

/-- The whitespace class removed by the trim of JavaScript strings; the
ASCII members suffice for every property below (the Unicode space class
never appears in the claims). -/
def jsWhitespace (c : Char) : Bool :=
  c == ' ' || c == '\t' || c == '\n' || c == '\r' || c == '\x0b' || c == '\x0c'

/-- Leading and trailing whitespace removal on the character list. -/
def trimChars (l : List Char) : List Char :=
  ((l.dropWhile jsWhitespace).reverse.dropWhile jsWhitespace).reverse

/-- The trim of JavaScript strings (String.prototype.trim), used by both
Manager guards; structurally recursive so that concrete runs evaluate. -/
def jsTrim (s : String) : String :=
  ⟨trimChars s.data⟩

/-- The active filter of the Manager (this.currentFilter). -/
inductive Filter where
  | all
  | pending
  | completed
  deriving DecidableEq, Repr

/-- The joint state the claims quantify over: the decoded persisted
collection, the Manager's in-memory this.tasks, the active filter, and the
flag that makes the next save throw. -/
structure Sys where
  stored : List Task
  mem : List Task
  currentFilter : Filter
  saveFails : Bool
  deriving DecidableEq, Repr

namespace TaskManager

/-- TaskManager.addTask: silently return when the trimmed text is empty;
otherwise delegate to TaskAPI.addTask and unshift the returned task onto
this.tasks; a data-layer failure is caught and leaves the state as it
was. -/
def addTask (now : Nat) (s : Sys) (text : String) : Sys :=
  if jsTrim text = "" then s
  else
    match TaskAPI.addTask now s.saveFails text s.stored with
    | .error _ => s
    | .ok (newTask, stored') => { s with stored := stored', mem := newTask :: s.mem }

/-- TaskManager.toggleTaskCompletion: find the task in this.tasks (return
when absent), delegate to TaskAPI.updateTask with the negated completed
flag, then replace the in-memory entry at the found index; any data-layer
failure is caught and leaves the state as it was. -/
def toggleTaskCompletion (nowIso : String) (s : Sys) (id : String) : Sys :=
  match s.mem.find? (fun t => t.id == id) with
  | none => s
  | some task =>
    match TaskAPI.updateTask nowIso s.saveFails s.stored id
        { text := none, completed := some (!task.completed) } with
    | .error _ => s
    | .ok (updatedTask, stored') =>
      match s.mem.findIdx? (fun t => t.id == id) with
      | none => { s with stored := stored' }
      | some i => { s with stored := stored', mem := s.mem.set i updatedTask }

/-- TaskManager.updateTaskText: silently return when the trimmed new text is
empty; otherwise delegate to TaskAPI.updateTask with the new text and
replace the in-memory entry at the found index; failures are caught and
leave the state as it was. -/
def updateTaskText (nowIso : String) (s : Sys) (id newText : String) : Sys :=
  if jsTrim newText = "" then s
  else
    match TaskAPI.updateTask nowIso s.saveFails s.stored id
        { text := some newText, completed := none } with
    | .error _ => s
    | .ok (updatedTask, stored') =>
      match s.mem.findIdx? (fun t => t.id == id) with
      | none => { s with stored := stored' }
      | some i => { s with stored := stored', mem := s.mem.set i updatedTask }

/-- TaskManager.getFilteredTasks: the visible tasks under the active filter
(the default switch branch returns a copy of this.tasks, equal to it by
value). -/
def getFilteredTasks (s : Sys) : List Task :=
  match s.currentFilter with
  | .pending => s.mem.filter (fun t => !t.completed)
  | .completed => s.mem.filter (fun t => t.completed)
  | .all => s.mem

/-- The two numbers TaskManager.renderTaskCount computes, both from the full
this.tasks: pending count and total count. -/
def renderTaskCount (s : Sys) : Nat × Nat :=
  ((s.mem.filter (fun t => !t.completed)).length, s.mem.length)

end TaskManager

/- Interleaving model for the Store read-modify-write race.  Each
TaskAPI.addTask call suspends twice: at the getTasks await (after which it
holds its snapshot of the persisted record) and at the saveTasks await
(after which the record holds its write).  The simulated latencies are
independent draws from 100 to 400 ms, so for two calls issued back to back
every order of the two resolution points is reachable in the event loop;
the code takes no lock around the read-modify-write.  A schedule lists the
four resolution events; an execution folds them over the persisted
record. -/

/-- The four await resolutions of two concurrent TaskAPI.addTask calls:
each call reads its snapshot, then writes its unshifted snapshot. -/
inductive Ev where
  | read1
  | read2
  | write1
  | write2
  deriving DecidableEq, BEq, Repr

/-- One pending TaskAPI.addTask call: its Date.now() value and its text. -/
structure AddOp where
  now : Nat
  text : String
  deriving DecidableEq, Repr

/-- The persisted record plus the snapshot each pending call took at its
getTasks resolution (none while still awaiting it). -/
structure RaceState where
  stored : List Task
  snap1 : Option (List Task)
  snap2 : Option (List Task)
  deriving DecidableEq, Repr

/-- Both calls issued, neither resolution reached yet. -/
def raceInit (stored0 : List Task) : RaceState :=
  { stored := stored0, snap1 := none, snap2 := none }

/-- Effect of one await resolution: a read captures the current record as
the snapshot of that call; a write replaces the record with the new task
unshifted onto that same snapshot (a write before its read cannot occur in
a valid schedule and is modelled as a no-op). -/
def raceStep (op1 op2 : AddOp) (st : RaceState) : Ev → RaceState
  | .read1 => { st with snap1 := some st.stored }
  | .read2 => { st with snap2 := some st.stored }
  | .write1 =>
    match st.snap1 with
    | some snap => { st with stored := mkNewTask op1.now op1.text :: snap }
    | none => st
  | .write2 =>
    match st.snap2 with
    | some snap => { st with stored := mkNewTask op2.now op2.text :: snap }
    | none => st

/-- Run a schedule of await resolutions over the persisted record. -/
def raceRun (op1 op2 : AddOp) (st : RaceState) (evs : List Ev) : RaceState :=
  evs.foldl (raceStep op1 op2) st

/-- A schedule the event loop can produce: each of the four resolutions
occurs exactly once and each call reads before it writes. -/
def validSchedule (evs : List Ev) : Bool :=
  evs.length == 4 && evs.contains .read1 && evs.contains .read2 &&
    evs.contains .write1 && evs.contains .write2 &&
    decide (evs.indexOf .read1 < evs.indexOf .write1) &&
    decide (evs.indexOf .read2 < evs.indexOf .write2)

/-- The per-filter predicate in the words of the spec: all of the collection
for all, completed false for pending, completed true for completed.  This is
the refinement target for the filter-correctness claim, to be compared with
the source-derived getFilteredTasks. -/
def filterPred : Filter → Task → Bool
  | .all, _ => true
  | .pending, t => !t.completed
  | .completed, t => t.completed

/-- The freshly loaded state: empty collection, filter all, healthy
storage. -/
def sys0 : Sys :=
  { stored := [], mem := [], currentFilter := Filter.all, saveFails := false }

/-- The state after adding text A to the fresh state at clock 1. -/
def sysA : Sys := TaskManager.addTask 1 sys0 "A"

/-- A one-task state whose next save will throw. -/
def sysFail : Sys :=
  { stored := [mkNewTask 5 "X"], mem := [mkNewTask 5 "X"],
    currentFilter := Filter.all, saveFails := true }

theorem decodeTask_encodeTask (t : Task) : decodeTask (encodeTask t) = some t := by
  cases t with
  | mk i tx c ca ua => cases ua <;> rfl

theorem decodeTasks_encodeTasks (ts : List Task) :
    decodeTasks (encodeTasks ts) = some ts := by
  induction ts with
  | nil => rfl
  | cons t rest ih =>
    simp only [encodeTasks, List.map] at *
    simp only [decodeTasks, decodeTaskList, decodeTask_encodeTask]
    simp only [decodeTasks] at ih
    rw [ih]

/-- Claim C1, evaluated at the failing input: two add operations whose
Date.now() both return 1000 (the same millisecond) give both tasks the id
string 1000, so the id values of the resulting collection are not pairwise
distinct. -/
theorem C1_same_millisecond_id_collision :
    ¬ (((TaskManager.addTask 1000 (TaskManager.addTask 1000 sys0 "A") "B").mem.map
        Task.id).Nodup) := by decide

/-- Claim C2 counterexample: the input has non-empty trim, so it is
accepted, but the stored text is the verbatim input with its surrounding
whitespace, not the trimmed form the claim requires. -/
theorem C2_counterexample_text_kept_verbatim :
    (TaskManager.addTask 1 sys0 " A ").mem.map Task.text ≠ [jsTrim " A "] := by
  decide

/-- Claim C2 amended: for every input whose trimmed form is non-empty, the
created task stores the input text verbatim (no trimming is applied on the
add path), so the stored text is non-empty and its trim is non-empty, but
it may carry leading or trailing whitespace. -/
theorem C2_amended_text_stored_verbatim (now : Nat) (s : Sys) (text : String)
    (hne : jsTrim text ≠ "") (hsave : s.saveFails = false) :
    (TaskManager.addTask now s text).mem = mkNewTask now text :: s.mem ∧
    (mkNewTask now text).text = text ∧ text ≠ "" ∧ jsTrim text ≠ "" := by
  refine ⟨?_, rfl, ?_, hne⟩
  · simp [TaskManager.addTask, TaskAPI.addTask, hne, hsave]
  · intro h
    apply hne
    rw [h]
    rfl

/-- Witness for the amended claim C2 at the concrete input with surrounding
blanks. -/
theorem C2_amended_witness :
    jsTrim " A " ≠ "" ∧ sys0.saveFails = false ∧
    ((TaskManager.addTask 1 sys0 " A ").mem = mkNewTask 1 " A " :: sys0.mem ∧
     (mkNewTask 1 " A ").text = " A " ∧ " A " ≠ "" ∧ jsTrim " A " ≠ "") :=
  ⟨by decide, rfl, C2_amended_text_stored_verbatim 1 sys0 " A " (by decide) rfl⟩

/-- Claim C3: saving a collection and reading it back returns the very
serialization just written, and that serialization decodes to the same
tasks, in the same order, with the same field values. -/
theorem C3_save_then_get_round_trip (ts : List Task) (s : Stored) :
    TaskAPI.getTasks (TaskAPI.saveTasks ts s) = .ok (encodeTasks ts) ∧
    decodeTasks (encodeTasks ts) = some ts :=
  ⟨rfl, decodeTasks_encodeTasks ts⟩

/-- Claim C6 counterexample: a malformed persisted value makes getTasks
fail with the rethrown parse error instead of returning the empty
collection, even though the storage medium itself did not throw. -/
theorem C6_counterexample_malformed_throws :
    TaskAPI.getTasks Stored.malformed = .error StoreError.parseError := rfl

/-- Claim C6 amended: getTasks returns the empty collection when the
persisted value is absent (or parses to a falsy JSON value), returns the
parsed value otherwise, and fails with the propagated parse error when the
persisted value is malformed; after a save it returns exactly the saved
collection. -/
theorem C6_amended_getTasks_behavior :
    TaskAPI.getTasks Stored.absent = .ok (JsonVal.arr []) ∧
    TaskAPI.getTasks Stored.malformed = .error StoreError.parseError ∧
    (∀ v, TaskAPI.getTasks (Stored.value v) =
      .ok (if isFalsy v then JsonVal.arr [] else v)) ∧
    (∀ ts s, TaskAPI.getTasks (TaskAPI.saveTasks ts s) = .ok (encodeTasks ts)) :=
  ⟨rfl, rfl, fun _ => rfl, fun _ _ => rfl⟩

/-- Claim C4: the visible tasks under the active filter are exactly the
sublist of the in-memory collection satisfying the filter predicate of the
spec (order preserved, being the same List.filter), and the two counts are
computed from the full in-memory collection, unchanged by the active
filter. -/
theorem C4_filter_correctness (s : Sys) :
    TaskManager.getFilteredTasks s = s.mem.filter (fun t => filterPred s.currentFilter t) ∧
    (∀ f, TaskManager.renderTaskCount { s with currentFilter := f } =
      TaskManager.renderTaskCount s) ∧
    TaskManager.renderTaskCount s =
      ((s.mem.filter (fun t => !t.completed)).length, s.mem.length) := by
  refine ⟨?_, fun f => rfl, rfl⟩
  cases h : s.currentFilter <;>
    simp [TaskManager.getFilteredTasks, filterPred, h]

/-- Claim C5: when the data-layer update fails during a toggle, the caught
failure leaves the whole Manager state, in particular the in-memory
collection, exactly as it was before the call. -/
theorem C5_failure_isolation (nowIso : String) (s : Sys) (id : String)
    (task : Task) (e : StoreError)
    (hfind : s.mem.find? (fun t => t.id == id) = some task)
    (hfail : TaskAPI.updateTask nowIso s.saveFails s.stored id
      { text := none, completed := some (!task.completed) } = .error e) :
    TaskManager.toggleTaskCompletion nowIso s id = s := by
  simp [TaskManager.toggleTaskCompletion, hfind, hfail]

/-- Witness for claim C5: a concrete one-task state whose save throws; the
toggle leaves the state untouched. -/
theorem C5_witness :
    sysFail.mem.find? (fun t => t.id == "5") = some (mkNewTask 5 "X") ∧
    TaskAPI.updateTask "9" sysFail.saveFails sysFail.stored "5"
      { text := none, completed := some (!(mkNewTask 5 "X").completed) } =
      .error StoreError.storageUnavailable ∧
    TaskManager.toggleTaskCompletion "9" sysFail "5" = sysFail :=
  ⟨rfl, rfl,
    C5_failure_isolation "9" sysFail "5" (mkNewTask 5 "X")
      StoreError.storageUnavailable rfl rfl⟩

/-- Claim C7: a successful add prepends the created task at position 0 of
both the persisted and the in-memory collection, and any add (accepted,
rejected or failed) keeps the two collections equal when they were equal
before. -/
theorem C7_newest_first_no_divergence (now : Nat) (s : Sys) (text : String) :
    (jsTrim text ≠ "" → s.saveFails = false →
      (TaskManager.addTask now s text).mem = mkNewTask now text :: s.mem ∧
      (TaskManager.addTask now s text).stored = mkNewTask now text :: s.stored) ∧
    (s.mem = s.stored →
      (TaskManager.addTask now s text).mem = (TaskManager.addTask now s text).stored) := by
  constructor
  · intro hne hsave
    simp [TaskManager.addTask, TaskAPI.addTask, hne, hsave]
  · intro heq
    by_cases htrim : jsTrim text = ""
    · simp [TaskManager.addTask, htrim, heq]
    · cases hsf : s.saveFails with
      | true => simp [TaskManager.addTask, TaskAPI.addTask, htrim, hsf, heq]
      | false => simp [TaskManager.addTask, TaskAPI.addTask, htrim, hsf, heq]

/-- Witness for claim C7: adding A then B to the fresh empty state yields
the collection B then A, identically in memory and in storage. -/
theorem C7_witness :
    jsTrim "B" ≠ "" ∧ sysA.saveFails = false ∧
    (TaskManager.addTask 2 sysA "B").mem = mkNewTask 2 "B" :: sysA.mem ∧
    (TaskManager.addTask 2 sysA "B").stored = mkNewTask 2 "B" :: sysA.stored ∧
    (TaskManager.addTask 2 sysA "B").mem = [mkNewTask 2 "B", mkNewTask 1 "A"] ∧
    (TaskManager.addTask 2 sysA "B").mem = (TaskManager.addTask 2 sysA "B").stored :=
  ⟨by decide, by decide,
    ((C7_newest_first_no_divergence 2 sysA "B").1 (by decide) (by decide)).1,
    ((C7_newest_first_no_divergence 2 sysA "B").1 (by decide) (by decide)).2,
    by decide,
    (C7_newest_first_no_divergence 2 sysA "B").2 (by decide)⟩

theorem updateInList_decomp (nowIso : String) (u : Updates) (id : String) :
    ∀ ts ut ts', TaskAPI.updateInList nowIso u id ts = some (ut, ts') →
      ∃ pre old suf, ts = pre ++ old :: suf ∧ ts' = pre ++ ut :: suf ∧
        (∀ t ∈ pre, (t.id == id) = false) ∧ (old.id == id) = true ∧
        ut = applyUpdates old u nowIso := by
  intro ts
  induction ts with
  | nil => intro ut ts' h; simp [TaskAPI.updateInList] at h
  | cons t rest ih =>
    intro ut ts' h
    by_cases hid : (t.id == id) = true
    · rw [TaskAPI.updateInList, if_pos hid] at h
      refine ⟨[], t, rest, rfl, ?_, by simp, hid, ?_⟩
      · simp only [List.nil_append]
        obtain ⟨h1, h2⟩ := Prod.mk.injEq .. ▸ Option.some.injEq .. ▸ h
        rw [← h1, ← h2]
      · obtain ⟨h1, _⟩ := Prod.mk.injEq .. ▸ Option.some.injEq .. ▸ h
        exact h1.symm
    · rw [TaskAPI.updateInList, if_neg hid] at h
      cases hrec : TaskAPI.updateInList nowIso u id rest with
      | none => rw [hrec] at h; exact absurd h (by simp)
      | some p =>
        obtain ⟨ut0, rest'⟩ := p
        rw [hrec] at h
        obtain ⟨h1, h2⟩ := Prod.mk.injEq .. ▸ Option.some.injEq .. ▸ h
        obtain ⟨pre, old, suf, hts, hts', hpre, hold, hut⟩ := ih ut0 rest' hrec
        refine ⟨t :: pre, old, suf, by rw [hts]; rfl, ?_, ?_, hold, by rw [← h1, hut]⟩
        · rw [← h2, hts', ← h1]
          rfl
        · intro x hx
          cases hx with
          | head => simpa using hid
          | tail _ hx' => exact hpre x hx'

/-- Claim C8: a successful data-layer update splits the collection around
the first task carrying the target id; the merged task keeps that task's id
and createdAt, carries the new updatedAt stamp, changes text only when a
text update was requested and completed only when a completed update was
requested, and every other task of the collection is untouched. -/
theorem C8_mutation_frame (nowIso : String) (stored : List Task) (id : String)
    (u : Updates) (ut : Task) (ts' : List Task)
    (h : TaskAPI.updateTask nowIso false stored id u = .ok (ut, ts')) :
    ∃ pre old suf, stored = pre ++ old :: suf ∧ ts' = pre ++ ut :: suf ∧
      (∀ t ∈ pre, (t.id == id) = false) ∧ (old.id == id) = true ∧
      ut.id = old.id ∧ ut.createdAt = old.createdAt ∧
      ut.updatedAt = some nowIso ∧
      (u.text = none → ut.text = old.text) ∧
      (u.completed = none → ut.completed = old.completed) ∧
      (∀ x, u.text = some x → ut.text = x) ∧
      (∀ b, u.completed = some b → ut.completed = b) := by
  rw [TaskAPI.updateTask] at h
  cases hui : TaskAPI.updateInList nowIso u id stored with
  | none => rw [hui] at h; exact absurd h (by simp)
  | some p =>
    obtain ⟨ut0, ts0⟩ := p
    rw [hui] at h
    simp only [if_neg (by simp : ¬ false = true), Except.ok.injEq, Prod.mk.injEq] at h
    obtain ⟨h1, h2⟩ := h
    obtain ⟨pre, old, suf, hts, hts', hpre, hold, hut⟩ :=
      updateInList_decomp nowIso u id stored ut0 ts0 hui
    subst h1 h2
    refine ⟨pre, old, suf, hts, hts', hpre, hold, ?_, ?_, ?_, ?_, ?_, ?_, ?_⟩ <;>
      rw [hut]
    · rfl
    · rfl
    · rfl
    · intro hx; rw [applyUpdates, hx]; rfl
    · intro hb; rw [applyUpdates, hb]; rfl
    · intro x hx; rw [applyUpdates, hx]; rfl
    · intro b hb; rw [applyUpdates, hb]; rfl

/-- Witness for claim C8: toggling the second of two stored tasks stamps it
and leaves the first untouched. -/
theorem C8_witness :
    TaskAPI.updateTask "9" false [mkNewTask 1 "A", mkNewTask 2 "B"] "2"
      { text := none, completed := some true } =
      .ok (applyUpdates (mkNewTask 2 "B") { text := none, completed := some true } "9",
        [mkNewTask 1 "A",
         applyUpdates (mkNewTask 2 "B") { text := none, completed := some true } "9"]) ∧
    (∃ pre old suf,
      [mkNewTask 1 "A", mkNewTask 2 "B"] = pre ++ old :: suf ∧
      [mkNewTask 1 "A",
       applyUpdates (mkNewTask 2 "B") { text := none, completed := some true } "9"] =
        pre ++ (applyUpdates (mkNewTask 2 "B") { text := none, completed := some true } "9") :: suf ∧
      (∀ t ∈ pre, (t.id == "2") = false) ∧ (old.id == "2") = true ∧
      (applyUpdates (mkNewTask 2 "B") { text := none, completed := some true } "9").id = old.id ∧
      (applyUpdates (mkNewTask 2 "B") { text := none, completed := some true } "9").createdAt = old.createdAt ∧
      (applyUpdates (mkNewTask 2 "B") { text := none, completed := some true } "9").updatedAt = some "9" ∧
      ((none : Option String) = none →
        (applyUpdates (mkNewTask 2 "B") { text := none, completed := some true } "9").text = old.text) ∧
      ((some true : Option Bool) = none →
        (applyUpdates (mkNewTask 2 "B") { text := none, completed := some true } "9").completed = old.completed) ∧
      (∀ x, (none : Option String) = some x →
        (applyUpdates (mkNewTask 2 "B") { text := none, completed := some true } "9").text = x) ∧
      (∀ b, (some true : Option Bool) = some b →
        (applyUpdates (mkNewTask 2 "B") { text := none, completed := some true } "9").completed = b)) :=
  ⟨rfl, C8_mutation_frame "9" [mkNewTask 1 "A", mkNewTask 2 "B"] "2"
    { text := none, completed := some true } _ _ rfl⟩

/-- Claim C9 counterexample: the schedule where both adds resolve their
reads before either write is a schedule the unguarded event loop can
produce; after the first write the record holds the first task, yet the
second write replaces the record with a state computed from its stale read,
so the final record has lost the first task — the read-modify-write
sequences did interleave and the Store persisted a state older than the one
it had just confirmed. -/
theorem C9_counterexample_lost_update :
    validSchedule [Ev.read1, Ev.read2, Ev.write1, Ev.write2] = true ∧
    (raceRun ⟨1, "A"⟩ ⟨2, "B"⟩ (raceInit [])
      [Ev.read1, Ev.read2, Ev.write1]).stored = [mkNewTask 1 "A"] ∧
    (raceRun ⟨1, "A"⟩ ⟨2, "B"⟩ (raceInit [])
      [Ev.read1, Ev.read2, Ev.write1, Ev.write2]).stored = [mkNewTask 2 "B"] ∧
    mkNewTask 1 "A" ∉
      (raceRun ⟨1, "A"⟩ ⟨2, "B"⟩ (raceInit [])
        [Ev.read1, Ev.read2, Ev.write1, Ev.write2]).stored := by
  refine ⟨by decide, rfl, rfl, by decide⟩

/-- Claim C9 amended: the Store takes no lock around its read-modify-write
sequences, so two concurrent adds may interleave; in the
read-read-write-write interleaving the final persisted record is the second
writer's unshift onto its own (stale) read, and the first writer's task,
although persisted by its own successful write, is absent from the final
record — last-writer-wins at whole-record granularity, not serialized. -/
theorem C9_amended_unserialized_interleaving (n1 n2 : Nat) (t1 t2 : String)
    (stored0 : List Task)
    (hne : mkNewTask n1 t1 ≠ mkNewTask n2 t2)
    (hmem : mkNewTask n1 t1 ∉ stored0) :
    validSchedule [Ev.read1, Ev.read2, Ev.write1, Ev.write2] = true ∧
    (raceRun ⟨n1, t1⟩ ⟨n2, t2⟩ (raceInit stored0)
      [Ev.read1, Ev.read2, Ev.write1]).stored = mkNewTask n1 t1 :: stored0 ∧
    (raceRun ⟨n1, t1⟩ ⟨n2, t2⟩ (raceInit stored0)
      [Ev.read1, Ev.read2, Ev.write1, Ev.write2]).stored = mkNewTask n2 t2 :: stored0 ∧
    mkNewTask n1 t1 ∉
      (raceRun ⟨n1, t1⟩ ⟨n2, t2⟩ (raceInit stored0)
        [Ev.read1, Ev.read2, Ev.write1, Ev.write2]).stored := by
  refine ⟨by decide, rfl, rfl, ?_⟩
  intro hmem'
  cases List.mem_cons.mp hmem' with
  | inl hh => exact hne hh
  | inr ht => exact hmem ht

/-- Witness for the amended claim C9 at two concrete adds over the empty
record. -/
theorem C9_amended_witness :
    mkNewTask 1 "A" ≠ mkNewTask 2 "B" ∧
    mkNewTask 1 "A" ∉ ([] : List Task) ∧
    (validSchedule [Ev.read1, Ev.read2, Ev.write1, Ev.write2] = true ∧
     (raceRun ⟨1, "A"⟩ ⟨2, "B"⟩ (raceInit [])
       [Ev.read1, Ev.read2, Ev.write1]).stored = mkNewTask 1 "A" :: [] ∧
     (raceRun ⟨1, "A"⟩ ⟨2, "B"⟩ (raceInit [])
       [Ev.read1, Ev.read2, Ev.write1, Ev.write2]).stored = mkNewTask 2 "B" :: [] ∧
     mkNewTask 1 "A" ∉
       (raceRun ⟨1, "A"⟩ ⟨2, "B"⟩ (raceInit [])
         [Ev.read1, Ev.read2, Ev.write1, Ev.write2]).stored) :=
  ⟨by decide, by decide,
    C9_amended_unserialized_interleaving 1 2 "A" "B" [] (by decide) (by decide)⟩

theorem updateInList_of_any (nowIso : String) (u : Updates) (id : String) :
    ∀ ts, ts.any (fun task => task.id == id) = true →
      ∃ ut ts', TaskAPI.updateInList nowIso u id ts = some (ut, ts') ∧ ut ∈ ts' := by
  intro ts
  induction ts with
  | nil => intro h; simp at h
  | cons t rest ih =>
    intro h
    by_cases hid : (t.id == id) = true
    · refine ⟨applyUpdates t u nowIso, applyUpdates t u nowIso :: rest, ?_, List.mem_cons_self ..⟩
      rw [TaskAPI.updateInList, if_pos hid]
    · have hrest : rest.any (fun task => task.id == id) = true := by
        rw [List.any_cons] at h
        cases Bool.or_eq_true_iff.mp h with
        | inl hh => exact absurd hh hid
        | inr hh => exact hh
      obtain ⟨ut, ts', hts, hmem⟩ := ih hrest
      refine ⟨ut, t :: ts', ?_, List.mem_cons_of_mem t hmem⟩
      rw [TaskAPI.updateInList, if_neg hid, hts]

/-- Claim C10: the data-layer update validates nothing: whenever the target
id is present, a direct update with any text (the empty string included)
succeeds and persists the task with exactly that text, while the empty-text
guard lives only in the Manager, whose updateTaskText is a no-op on
whitespace-only input. -/
theorem C10_store_level_update_unguarded (nowIso id : String) :
    (∀ stored x, stored.any (fun task => task.id == id) = true →
      ∃ ut ts', TaskAPI.updateTask nowIso false stored id
          { text := some x, completed := none } = .ok (ut, ts') ∧
        ut.text = x ∧ ut ∈ ts') ∧
    (∀ s newText, jsTrim newText = "" →
      TaskManager.updateTaskText nowIso s id newText = s) := by
  constructor
  · intro stored x hany
    obtain ⟨ut, ts', hts, hmem⟩ :=
      updateInList_of_any nowIso { text := some x, completed := none } id stored hany
    refine ⟨ut, ts', ?_, ?_, hmem⟩
    · rw [TaskAPI.updateTask, hts]
      rfl
    · obtain ⟨pre, old, suf, _, _, _, _, hut⟩ :=
        updateInList_decomp nowIso { text := some x, completed := none } id stored ut ts' hts
      rw [hut]
      rfl
  · intro s newText htrim
    rw [TaskManager.updateTaskText, if_pos htrim]

/-- Witness for claim C10: updating the only stored task with the empty
string succeeds and persists the empty text, and the Manager guard is a
no-op on a whitespace-only edit. -/
theorem C10_witness :
    [mkNewTask 3 "C"].any (fun task => task.id == "3") = true ∧
    jsTrim " " = "" ∧
    (∃ ut ts', TaskAPI.updateTask "9" false [mkNewTask 3 "C"] "3"
        { text := some "", completed := none } = .ok (ut, ts') ∧
      ut.text = "" ∧ ut ∈ ts') ∧
    TaskManager.updateTaskText "9" sysA "3" " " = sysA :=
  ⟨by decide, by decide,
    (C10_store_level_update_unguarded "9" "3").1 [mkNewTask 3 "C"] "" (by decide),
    (C10_store_level_update_unguarded "9" "3").2 sysA " " (by decide)⟩

end TaskMaster
